import Mathlib

/-!
Verification of the CompliantVault core (src/contracts/CompliantVault.sol) and the
Chainalysis verification checker script (src/chainalysis.js).

The contract is embedded shallowly: uint256 balances are modelled as integers with
the checked arithmetic of Solidity 0.8 made explicit (an addition overflowing
2 ^ 256 or a subtraction going below zero reverts, modelled as `none`); mappings are
total functions with the Solidity zero-initialised default; a reverted call is not a
step of the chain-level transition system, so it leaves all state unchanged.
Addresses and bytes32 request identifiers are modelled as natural numbers, with 0
playing the role of the zero address.
-/

namespace CompliantVault

/-- Modulus of the unsigned 256-bit integers used by the EVM. -/
def UINT256_MOD : Nat := 2 ^ 256

/-- Big-endian interpretation of a list of bytes as a natural number. -/
def beBytesToNat (bs : List Nat) : Nat :=
  bs.foldl (fun acc b => acc * 256 + b % 256) 0

/-- Big-endian bytes of a natural number at a given width (most significant first). -/
def natToBeBytes : Nat → Nat → List Nat
  | 0, _ => []
  | w + 1, n => natToBeBytes w (n / 256) ++ [n % 256]

/-- Model of `Functions.encodeUint256` from the checker script: the 32-byte
big-endian encoding of the value. -/
def encodeUint256 (n : Nat) : List Nat :=
  natToBeBytes 32 (n % UINT256_MOD)

/-- Model of the Solidity conversion `bytes32(bytes memory)`: the first 32 bytes,
right-padded with zero bytes when the input is shorter. -/
def bytes32ofBytes (bs : List Nat) : List Nat :=
  bs.take 32 ++ List.replicate (32 - bs.length) 0

/-- Model of `uint256(bytes32(response))` as used in `fulfillRequest`. -/
def decodeUint256 (response : List Nat) : Nat :=
  beBytesToNat (bytes32ofBytes response)

/-- The `RequestType` enum of the contract. -/
inductive RequestType
  | Deposit
  | Withdrawal
deriving DecidableEq, Repr

/-- The `PendingRequest` struct of the contract. -/
structure PendingRequest where
  requester : Nat
  amount : Nat
  requestType : RequestType
deriving DecidableEq, Repr

/-- Default value of a Solidity mapping slot holding a `PendingRequest`: all fields
zero, the enum at its first constructor. -/
def emptyPending : PendingRequest := ⟨0, 0, RequestType.Deposit⟩

/-- The mutable storage of the contract that the claims concern: the `s_balances`
and `s_pending` mappings. -/
structure VaultState where
  s_balances : Nat → Int
  s_pending : Nat → PendingRequest

/-- The events declared by the contract, with exactly the parameters each carries
in the Solidity declaration. -/
inductive Event
  | DepositRequest (requestId requester amount : Nat)
  | WithdrawalRequest (requestId requester amount : Nat)
  | DepositRequestFulfilled (requestId requester amount : Nat)
  | WithdrawalRequestFulfilled (requestId requester amount : Nat)
  | DepositRequestCancelled (requestId requester amount : Nat)
  | WithdrawalRequestCancelled (requestId requester amount : Nat)
  | RequestFailed (message : List Nat)
  | UnknownRequestType
  | NoPendingRequest
deriving DecidableEq, Repr

/-- The custom errors declared by the contract. -/
inductive VaultError
  | ZeroAmount
  | InsufficientBalance
deriving DecidableEq, Repr

/-- Point update of the balances mapping. -/
def setBalance (s : VaultState) (user : Nat) (v : Int) : VaultState :=
  { s with s_balances := fun a => if a = user then v else s.s_balances a }

/-- Model of `delete s_pending[requestId]`: resets the slot to its default. -/
def deletePending (s : VaultState) (requestId : Nat) : VaultState :=
  { s with s_pending := fun i => if i = requestId then emptyPending else s.s_pending i }

/-- Point update of the pending mapping. -/
def setPending (s : VaultState) (requestId : Nat) (p : PendingRequest) : VaultState :=
  { s with s_pending := fun i => if i = requestId then p else s.s_pending i }

/-- The `balanceOf` view of the contract. -/
def balanceOf (s : VaultState) (user : Nat) : Int := s.s_balances user

/-- Model of `executeDeposit`: `s_balances[user] += amount` with the checked
uint256 addition of Solidity 0.8 made explicit; overflow reverts (`none`). -/
def executeDeposit (s : VaultState) (user amount : Nat) : Option VaultState :=
  if s.s_balances user + (amount : Int) < (UINT256_MOD : Int) then
    some (setBalance s user (s.s_balances user + (amount : Int)))
  else none

/-- Model of `executeWithdraw`: `s_balances[user] -= amount` with the checked
uint256 subtraction of Solidity 0.8 made explicit (underflow reverts, `none`),
followed by `payable(user).transfer(amount)`, modelled as the returned payout pair
(recipient, amount). The transfer itself is assumed to succeed. -/
def executeWithdraw (s : VaultState) (user amount : Nat) : Option (VaultState × (Nat × Nat)) :=
  if (amount : Int) ≤ s.s_balances user then
    some (setBalance s user (s.s_balances user - (amount : Int)), (user, amount))
  else none

/-- Model of `requestDeposit`: `sender` is `msg.sender`, `value` is `msg.value`,
and `requestId` is the identifier returned by the oracle via
`executeRequest`/`sendRequest` (the oracle is external, so the identifier is a
parameter of the model). A revert is an `Except.error`. -/
def requestDeposit (s : VaultState) (sender value requestId : Nat) :
    Except VaultError (VaultState × List Event) :=
  if value = 0 then Except.error VaultError.ZeroAmount
  else Except.ok (setPending s requestId ⟨sender, value, RequestType.Deposit⟩,
    [Event.DepositRequest requestId sender value])

/-- Model of `requestWithdrawal`, with the same conventions as `requestDeposit`. -/
def requestWithdrawal (s : VaultState) (sender amount requestId : Nat) :
    Except VaultError (VaultState × List Event) :=
  if amount = 0 then Except.error VaultError.ZeroAmount
  else if (amount : Int) > s.s_balances sender then Except.error VaultError.InsufficientBalance
  else Except.ok (setPending s requestId ⟨sender, amount, RequestType.Withdrawal⟩,
    [Event.WithdrawalRequest requestId sender amount])

/-- Result of a completed (non-reverting) `fulfillRequest` call: the new storage,
the emitted events, and the ETH payouts performed by `transfer`. -/
structure FulfillResult where
  state : VaultState
  events : List Event
  payouts : List (Nat × Nat)

/-- Model of `fulfillRequest`. The pending entry is read into memory first, the
not-found test compares the stored requester with the zero address, the entry is
deleted before any effect, the error payload is checked before the response, and
the decoded response is compared with 1. A revert anywhere (checked arithmetic in
`executeDeposit`/`executeWithdraw`) makes the whole call revert (`none`). -/
def fulfillRequest (s : VaultState) (requestId : Nat) (response err : List Nat) :
    Option FulfillResult :=
  let request := s.s_pending requestId
  if request.requester = 0 then
    some ⟨s, [Event.NoPendingRequest], []⟩
  else
    let s1 := deletePending s requestId
    if err.length > 0 then
      some ⟨s1, [Event.RequestFailed err], []⟩
    else
      match request.requestType with
      | RequestType.Deposit =>
        if decodeUint256 response = 1 then
          match executeDeposit s1 request.requester request.amount with
          | some s2 =>
            some ⟨s2, [Event.DepositRequestFulfilled requestId request.requester request.amount], []⟩
          | none => none
        else
          some ⟨s1, [Event.DepositRequestCancelled requestId request.requester request.amount],
            [(request.requester, request.amount)]⟩
      | RequestType.Withdrawal =>
        if decodeUint256 response = 1 then
          match executeWithdraw s1 request.requester request.amount with
          | some (s2, payout) =>
            some ⟨s2, [Event.WithdrawalRequestFulfilled requestId request.requester request.amount],
              [payout]⟩
          | none => none
        else
          some ⟨s1, [Event.WithdrawalRequestCancelled requestId request.requester request.amount], []⟩

/-- Chain-level state: the vault storage together with the set of request
identifiers the oracle has ever returned. Identifiers issued by
`sendRequest` are globally unique, which the environment model records in
`issued`. -/
structure World where
  vault : VaultState
  issued : List Nat

/-- The externally triggerable transactions the claims concern. -/
inductive Tx
  | deposit (sender value requestId : Nat)
  | withdrawal (sender amount requestId : Nat)
  | fulfill (requestId : Nat) (response err : List Nat)
deriving DecidableEq, Repr

/-- Observable outcome of one successful transaction. -/
structure TxResult where
  world : World
  events : List Event
  payouts : List (Nat × Nat)

/-- One chain-level transaction. The environment guards encode EVM facts: a
transaction sender is never the zero address, `msg.value` and calldata amounts
are uint256 values, and the oracle never returns a previously issued request
identifier. A reverted transaction produces `none` and is not a step. -/
def applyTx (w : World) : Tx → Option TxResult
  | Tx.deposit sender value requestId =>
    if sender ≠ 0 ∧ value < UINT256_MOD ∧ requestId ∉ w.issued then
      match requestDeposit w.vault sender value requestId with
      | Except.ok (v, evs) => some ⟨⟨v, requestId :: w.issued⟩, evs, []⟩
      | Except.error _ => none
    else none
  | Tx.withdrawal sender amount requestId =>
    if sender ≠ 0 ∧ amount < UINT256_MOD ∧ requestId ∉ w.issued then
      match requestWithdrawal w.vault sender amount requestId with
      | Except.ok (v, evs) => some ⟨⟨v, requestId :: w.issued⟩, evs, []⟩
      | Except.error _ => none
    else none
  | Tx.fulfill requestId response err =>
    match fulfillRequest w.vault requestId response err with
    | some r => some ⟨⟨r.state, w.issued⟩, r.events, r.payouts⟩
    | none => none

/-- The state of a freshly deployed vault: all balances zero, no pending entry,
no identifier issued. -/
def World.init : World := ⟨⟨fun _ => 0, fun _ => emptyPending⟩, []⟩

/-- States reachable from deployment by any sequence of successful transactions. -/
inductive Reachable : World → Prop
  | init : Reachable World.init
  | step {w : World} {tx : Tx} {r : TxResult} :
      Reachable w → applyTx w tx = some r → Reachable r.world

/-- One recorded step of an execution trace. -/
structure TraceEntry where
  tx : Tx
  events : List Event
  payouts : List (Nat × Nat)
deriving DecidableEq, Repr

/-- Execution traces: each entry records a successful transaction together with
its observable events and payouts. -/
inductive TraceFrom : World → List TraceEntry → World → Prop
  | nil (w : World) : TraceFrom w [] w
  | cons {w w2 : World} {tx : Tx} {r : TxResult} {rest : List TraceEntry} :
      applyTx w tx = some r → TraceFrom r.world rest w2 →
      TraceFrom w (⟨tx, r.events, r.payouts⟩ :: rest) w2

/-- Runs a list of transactions, failing if any of them reverts. -/
def runTxs : World → List Tx → Option World
  | w, [] => some w
  | w, tx :: rest =>
    match applyTx w tx with
    | some r => runTxs r.world rest
    | none => none

theorem runTxs_reachable {txs : List Tx} :
    ∀ {w w2 : World}, Reachable w → runTxs w txs = some w2 → Reachable w2 := by
  induction txs with
  | nil => intro w w2 hw h; cases h; exact hw
  | cons tx rest ih =>
    intro w w2 hw h
    simp only [runTxs] at h
    cases htx : applyTx w tx with
    | none => rw [htx] at h; cases h
    | some r =>
      rw [htx] at h
      exact ih (Reachable.step hw htx) h

theorem fulfill_not_found {s : VaultState} {requestId : Nat} (resp err : List Nat)
    (h : (s.s_pending requestId).requester = 0) :
    fulfillRequest s requestId resp err = some ⟨s, [Event.NoPendingRequest], []⟩ := by
  simp [fulfillRequest, h]

theorem fulfill_error {s : VaultState} {requestId : Nat} {err : List Nat} (resp : List Nat)
    (hreq : (s.s_pending requestId).requester ≠ 0) (herr : err ≠ []) :
    fulfillRequest s requestId resp err =
      some ⟨deletePending s requestId, [Event.RequestFailed err], []⟩ := by
  simp [fulfillRequest, hreq, List.length_pos, herr]

theorem fulfill_deposit_approved {s : VaultState} {requestId : Nat} {resp : List Nat}
    (hreq : (s.s_pending requestId).requester ≠ 0)
    (htype : (s.s_pending requestId).requestType = RequestType.Deposit)
    (hresp : decodeUint256 resp = 1)
    (hov : s.s_balances (s.s_pending requestId).requester
      + ((s.s_pending requestId).amount : Int) < (UINT256_MOD : Int)) :
    fulfillRequest s requestId resp [] =
      some ⟨setBalance (deletePending s requestId) (s.s_pending requestId).requester
          (s.s_balances (s.s_pending requestId).requester + ((s.s_pending requestId).amount : Int)),
        [Event.DepositRequestFulfilled requestId (s.s_pending requestId).requester
          (s.s_pending requestId).amount], []⟩ := by
  simp [fulfillRequest, hreq, htype, hresp, executeDeposit, deletePending, hov]

theorem fulfill_deposit_overflow {s : VaultState} {requestId : Nat} {resp : List Nat}
    (hreq : (s.s_pending requestId).requester ≠ 0)
    (htype : (s.s_pending requestId).requestType = RequestType.Deposit)
    (hresp : decodeUint256 resp = 1)
    (hov : ¬ s.s_balances (s.s_pending requestId).requester
      + ((s.s_pending requestId).amount : Int) < (UINT256_MOD : Int)) :
    fulfillRequest s requestId resp [] = none := by
  simp [fulfillRequest, hreq, htype, hresp, executeDeposit, deletePending, hov]

theorem fulfill_deposit_rejected {s : VaultState} {requestId : Nat} {resp : List Nat}
    (hreq : (s.s_pending requestId).requester ≠ 0)
    (htype : (s.s_pending requestId).requestType = RequestType.Deposit)
    (hresp : decodeUint256 resp ≠ 1) :
    fulfillRequest s requestId resp [] =
      some ⟨deletePending s requestId,
        [Event.DepositRequestCancelled requestId (s.s_pending requestId).requester
          (s.s_pending requestId).amount],
        [((s.s_pending requestId).requester, (s.s_pending requestId).amount)]⟩ := by
  simp [fulfillRequest, hreq, htype, hresp]

theorem fulfill_withdrawal_approved {s : VaultState} {requestId : Nat} {resp : List Nat}
    (hreq : (s.s_pending requestId).requester ≠ 0)
    (htype : (s.s_pending requestId).requestType = RequestType.Withdrawal)
    (hresp : decodeUint256 resp = 1)
    (hle : ((s.s_pending requestId).amount : Int)
      ≤ s.s_balances (s.s_pending requestId).requester) :
    fulfillRequest s requestId resp [] =
      some ⟨setBalance (deletePending s requestId) (s.s_pending requestId).requester
          (s.s_balances (s.s_pending requestId).requester - ((s.s_pending requestId).amount : Int)),
        [Event.WithdrawalRequestFulfilled requestId (s.s_pending requestId).requester
          (s.s_pending requestId).amount],
        [((s.s_pending requestId).requester, (s.s_pending requestId).amount)]⟩ := by
  simp [fulfillRequest, hreq, htype, hresp, executeWithdraw, deletePending, hle]

theorem fulfill_withdrawal_underflow {s : VaultState} {requestId : Nat} {resp : List Nat}
    (hreq : (s.s_pending requestId).requester ≠ 0)
    (htype : (s.s_pending requestId).requestType = RequestType.Withdrawal)
    (hresp : decodeUint256 resp = 1)
    (hle : ¬ ((s.s_pending requestId).amount : Int)
      ≤ s.s_balances (s.s_pending requestId).requester) :
    fulfillRequest s requestId resp [] = none := by
  simp [fulfillRequest, hreq, htype, hresp, executeWithdraw, deletePending, hle]

theorem fulfill_withdrawal_rejected {s : VaultState} {requestId : Nat} {resp : List Nat}
    (hreq : (s.s_pending requestId).requester ≠ 0)
    (htype : (s.s_pending requestId).requestType = RequestType.Withdrawal)
    (hresp : decodeUint256 resp ≠ 1) :
    fulfillRequest s requestId resp [] =
      some ⟨deletePending s requestId,
        [Event.WithdrawalRequestCancelled requestId (s.s_pending requestId).requester
          (s.s_pending requestId).amount], []⟩ := by
  simp [fulfillRequest, hreq, htype, hresp]

/-- The inductive invariant of the system: balances are non-negative and below
the uint256 bound, and every pending slot is either untouched (the default) or a
well-formed live entry whose identifier the oracle issued. -/
def Inv (w : World) : Prop :=
  (∀ p, 0 ≤ w.vault.s_balances p ∧ w.vault.s_balances p < (UINT256_MOD : Int)) ∧
  (∀ id, w.vault.s_pending id = emptyPending ∨
    ((w.vault.s_pending id).requester ≠ 0 ∧ 0 < (w.vault.s_pending id).amount ∧ id ∈ w.issued))

theorem inv_init : Inv World.init := by
  constructor
  · intro p
    refine ⟨le_refl 0, ?_⟩
    have : (0 : Int) < (UINT256_MOD : Int) := by
      have : 0 < UINT256_MOD := Nat.pos_pow_of_pos 256 (by norm_num)
      exact_mod_cast this
    exact this
  · intro id; left; rfl

theorem inv_step {w : World} {tx : Tx} {r : TxResult}
    (hI : Inv w) (h : applyTx w tx = some r) : Inv r.world := by
  cases tx with
  | deposit sender value requestId =>
    by_cases hv : value = 0
    · simp [applyTx, requestDeposit, hv] at h
    · simp only [applyTx, requestDeposit, hv, if_neg hv, ite_false] at h
      split at h
      next hcond =>
        cases h
        refine ⟨fun p => hI.1 p, fun i => ?_⟩
        by_cases hi : i = requestId
        · subst hi
          right
          refine ⟨?_, ?_, List.mem_cons_self _ _⟩
          · simp [setPending]; exact hcond.1
          · simp [setPending]; exact Nat.pos_of_ne_zero hv
        · rcases hI.2 i with h0 | ⟨h1, h2, h3⟩
          · left; simpa [setPending, hi] using h0
          · right
            refine ⟨?_, ?_, List.mem_cons_of_mem _ h3⟩
            · simpa [setPending, hi] using h1
            · simpa [setPending, hi] using h2
      next => cases h
  | withdrawal sender amount requestId =>
    by_cases hv : amount = 0
    · simp [applyTx, requestWithdrawal, hv] at h
    · by_cases hgt : (amount : Int) > w.vault.s_balances sender
      · simp [applyTx, requestWithdrawal, hv, hgt] at h
      · simp only [applyTx, requestWithdrawal, hv, if_neg hv, hgt, ite_false] at h
        split at h
        next hcond =>
          cases h
          refine ⟨fun p => hI.1 p, fun i => ?_⟩
          by_cases hi : i = requestId
          · subst hi
            right
            refine ⟨?_, ?_, List.mem_cons_self _ _⟩
            · simp [setPending]; exact hcond.1
            · simp [setPending]; exact Nat.pos_of_ne_zero hv
          · rcases hI.2 i with h0 | ⟨h1, h2, h3⟩
            · left; simpa [setPending, hi] using h0
            · right
              refine ⟨?_, ?_, List.mem_cons_of_mem _ h3⟩
              · simpa [setPending, hi] using h1
              · simpa [setPending, hi] using h2
        next => cases h
  | fulfill requestId resp err =>
    simp only [applyTx] at h
    cases hf : fulfillRequest w.vault requestId resp err with
    | none => rw [hf] at h; cases h
    | some fr =>
      rw [hf] at h
      cases h
      by_cases hreq : (w.vault.s_pending requestId).requester = 0
      · rw [fulfill_not_found resp err hreq] at hf
        cases hf
        exact ⟨fun p => hI.1 p, fun i => hI.2 i⟩
      · by_cases herr : err = []
        · subst herr
          cases htype : (w.vault.s_pending requestId).requestType with
          | Deposit =>
            by_cases hresp : decodeUint256 resp = 1
            · by_cases hov : w.vault.s_balances (w.vault.s_pending requestId).requester
                + ((w.vault.s_pending requestId).amount : Int) < (UINT256_MOD : Int)
              · rw [fulfill_deposit_approved hreq htype hresp hov] at hf
                cases hf
                constructor
                · intro p
                  by_cases hp : p = (w.vault.s_pending requestId).requester
                  · subst hp
                    simp only [setBalance, deletePending, if_pos rfl]
                    constructor
                    · have h1 := (hI.1 ((w.vault.s_pending requestId).requester)).1
                      omega
                    · exact hov
                  · simpa [setBalance, deletePending, hp] using hI.1 p
                · intro i
                  by_cases hi : i = requestId
                  · subst hi; left; simp [setBalance, deletePending]
                  · rcases hI.2 i with h0 | ⟨h1, h2, h3⟩
                    · left; simpa [setBalance, deletePending, hi] using h0
                    · right
                      refine ⟨?_, ?_, h3⟩
                      · simpa [setBalance, deletePending, hi] using h1
                      · simpa [setBalance, deletePending, hi] using h2
              · rw [fulfill_deposit_overflow hreq htype hresp hov] at hf
                cases hf
            · rw [fulfill_deposit_rejected hreq htype hresp] at hf
              cases hf
              constructor
              · intro p; simpa [deletePending] using hI.1 p
              · intro i
                by_cases hi : i = requestId
                · subst hi; left; simp [deletePending]
                · rcases hI.2 i with h0 | ⟨h1, h2, h3⟩
                  · left; simpa [deletePending, hi] using h0
                  · right
                    refine ⟨?_, ?_, h3⟩
                    · simpa [deletePending, hi] using h1
                    · simpa [deletePending, hi] using h2
          | Withdrawal =>
            by_cases hresp : decodeUint256 resp = 1
            · by_cases hle : ((w.vault.s_pending requestId).amount : Int)
                ≤ w.vault.s_balances (w.vault.s_pending requestId).requester
              · rw [fulfill_withdrawal_approved hreq htype hresp hle] at hf
                cases hf
                constructor
                · intro p
                  by_cases hp : p = (w.vault.s_pending requestId).requester
                  · subst hp
                    simp only [setBalance, deletePending, if_pos rfl]
                    constructor
                    · exact sub_nonneg.mpr hle
                    · have h1 := (hI.1 ((w.vault.s_pending requestId).requester)).2
                      omega
                  · simpa [setBalance, deletePending, hp] using hI.1 p
                · intro i
                  by_cases hi : i = requestId
                  · subst hi; left; simp [setBalance, deletePending]
                  · rcases hI.2 i with h0 | ⟨h1, h2, h3⟩
                    · left; simpa [setBalance, deletePending, hi] using h0
                    · right
                      refine ⟨?_, ?_, h3⟩
                      · simpa [setBalance, deletePending, hi] using h1
                      · simpa [setBalance, deletePending, hi] using h2
              · rw [fulfill_withdrawal_underflow hreq htype hresp hle] at hf
                cases hf
            · rw [fulfill_withdrawal_rejected hreq htype hresp] at hf
              cases hf
              constructor
              · intro p; simpa [deletePending] using hI.1 p
              · intro i
                by_cases hi : i = requestId
                · subst hi; left; simp [deletePending]
                · rcases hI.2 i with h0 | ⟨h1, h2, h3⟩
                  · left; simpa [deletePending, hi] using h0
                  · right
                    refine ⟨?_, ?_, h3⟩
                    · simpa [deletePending, hi] using h1
                    · simpa [deletePending, hi] using h2
        · rw [fulfill_error resp hreq herr] at hf
          cases hf
          constructor
          · intro p; simpa [deletePending] using hI.1 p
          · intro i
            by_cases hi : i = requestId
            · subst hi; left; simp [deletePending]
            · rcases hI.2 i with h0 | ⟨h1, h2, h3⟩
              · left; simpa [deletePending, hi] using h0
              · right
                refine ⟨?_, ?_, h3⟩
                · simpa [deletePending, hi] using h1
                · simpa [deletePending, hi] using h2

theorem reachable_inv {w : World} (h : Reachable w) : Inv w := by
  induction h with
  | init => exact inv_init
  | step _ hstep ih => exact inv_step ih hstep

theorem fulfillRequest_some_spec {s : VaultState} {requestId : Nat} {resp err : List Nat}
    {fr : FulfillResult} (h : fulfillRequest s requestId resp err = some fr) :
    ((s.s_pending requestId).requester = 0 ∧ fr.state = s ∧
      fr.events = [Event.NoPendingRequest] ∧ fr.payouts = []) ∨
    ((s.s_pending requestId).requester ≠ 0 ∧
      fr.state.s_pending requestId = emptyPending ∧
      (∀ i, i ≠ requestId → fr.state.s_pending i = s.s_pending i) ∧
      (∀ p, p ≠ (s.s_pending requestId).requester →
        fr.state.s_balances p = s.s_balances p) ∧
      fr.events ≠ [Event.NoPendingRequest]) := by
  by_cases hreq : (s.s_pending requestId).requester = 0
  · rw [fulfill_not_found resp err hreq] at h
    cases h
    exact Or.inl ⟨hreq, rfl, rfl, rfl⟩
  · right
    by_cases herr : err = []
    · subst herr
      cases htype : (s.s_pending requestId).requestType with
      | Deposit =>
        by_cases hresp : decodeUint256 resp = 1
        · by_cases hov : s.s_balances (s.s_pending requestId).requester
            + ((s.s_pending requestId).amount : Int) < (UINT256_MOD : Int)
          · rw [fulfill_deposit_approved hreq htype hresp hov] at h
            cases h
            refine ⟨hreq, by simp [setBalance, deletePending], ?_, ?_, by simp⟩
            · intro i hi; simp [setBalance, deletePending, hi]
            · intro p hp; simp [setBalance, deletePending, hp]
          · rw [fulfill_deposit_overflow hreq htype hresp hov] at h
            cases h
        · rw [fulfill_deposit_rejected hreq htype hresp] at h
          cases h
          refine ⟨hreq, by simp [deletePending], ?_, ?_, by simp⟩
          · intro i hi; simp [deletePending, hi]
          · intro p _; simp [deletePending]
      | Withdrawal =>
        by_cases hresp : decodeUint256 resp = 1
        · by_cases hle : ((s.s_pending requestId).amount : Int)
            ≤ s.s_balances (s.s_pending requestId).requester
          · rw [fulfill_withdrawal_approved hreq htype hresp hle] at h
            cases h
            refine ⟨hreq, by simp [setBalance, deletePending], ?_, ?_, by simp⟩
            · intro i hi; simp [setBalance, deletePending, hi]
            · intro p hp; simp [setBalance, deletePending, hp]
          · rw [fulfill_withdrawal_underflow hreq htype hresp hle] at h
            cases h
        · rw [fulfill_withdrawal_rejected hreq htype hresp] at h
          cases h
          refine ⟨hreq, by simp [deletePending], ?_, ?_, by simp⟩
          · intro i hi; simp [deletePending, hi]
          · intro p _; simp [deletePending]
    · rw [fulfill_error resp hreq herr] at h
      cases h
      refine ⟨hreq, by simp [deletePending], ?_, ?_, by simp⟩
      · intro i hi; simp [deletePending, hi]
      · intro p _; simp [deletePending]

/-- Marks a trace entry that is a fulfillment callback for the given identifier
which did more than report a missing entry. -/
def isEffectfulFulfill (id : Nat) (e : TraceEntry) : Bool :=
  match e.tx with
  | Tx.fulfill id2 _ _ => id2 == id && e.events != [Event.NoPendingRequest]
  | _ => false

/-- A request identifier that has been issued and whose pending slot stores the
zero requester: the callback treats it as absent forever after. -/
def DeadId (w : World) (id : Nat) : Prop :=
  (w.vault.s_pending id).requester = 0 ∧ id ∈ w.issued

theorem dead_preserved {w : World} {tx : Tx} {r : TxResult} {id : Nat}
    (hd : DeadId w id) (h : applyTx w tx = some r) : DeadId r.world id := by
  cases tx with
  | deposit sender value requestId =>
    simp only [applyTx] at h
    split at h
    next hcond =>
      by_cases hv : value = 0
      · simp [requestDeposit, hv] at h
      · simp only [requestDeposit, hv, if_neg hv, ite_false] at h
        cases h
        have hne : id ≠ requestId := fun he => hcond.2.2 (he ▸ hd.2)
        exact ⟨by simpa [setPending, hne] using hd.1, List.mem_cons_of_mem _ hd.2⟩
    next => cases h
  | withdrawal sender amount requestId =>
    simp only [applyTx] at h
    split at h
    next hcond =>
      by_cases hv : amount = 0
      · simp [requestWithdrawal, hv] at h
      · by_cases hgt : (amount : Int) > w.vault.s_balances sender
        · simp [requestWithdrawal, hv, hgt] at h
        · simp only [requestWithdrawal, hv, if_neg hv, hgt, ite_false] at h
          cases h
          have hne : id ≠ requestId := fun he => hcond.2.2 (he ▸ hd.2)
          exact ⟨by simpa [setPending, hne] using hd.1, List.mem_cons_of_mem _ hd.2⟩
    next => cases h
  | fulfill requestId resp err =>
    simp only [applyTx] at h
    cases hf : fulfillRequest w.vault requestId resp err with
    | none => rw [hf] at h; cases h
    | some fr =>
      rw [hf] at h
      cases h
      rcases fulfillRequest_some_spec hf with ⟨_, hst, _, _⟩ | ⟨hreq, hself, hoth, _, _⟩
      · exact ⟨by rw [hst]; exact hd.1, hd.2⟩
      · by_cases hi : id = requestId
        · subst hi; exact ⟨by rw [hself]; rfl, hd.2⟩
        · exact ⟨by rw [hoth id hi]; exact hd.1, hd.2⟩

theorem dead_not_effectful {w : World} {tx : Tx} {r : TxResult} {id : Nat}
    (hd : DeadId w id) (h : applyTx w tx = some r) :
    isEffectfulFulfill id ⟨tx, r.events, r.payouts⟩ = false := by
  cases tx with
  | deposit sender value requestId => rfl
  | withdrawal sender amount requestId => rfl
  | fulfill requestId resp err =>
    simp only [isEffectfulFulfill]
    by_cases hi : requestId = id
    · subst hi
      simp only [applyTx] at h
      cases hf : fulfillRequest w.vault requestId resp err with
      | none => rw [hf] at h; cases h
      | some fr =>
        rw [hf] at h
        cases h
        rw [fulfill_not_found resp err hd.1] at hf
        cases hf
        simp
    · simp [hi]

theorem effectful_entry_dead {w : World} {tx : Tx} {r : TxResult} {id : Nat}
    (hI : Inv w) (h : applyTx w tx = some r)
    (he : isEffectfulFulfill id ⟨tx, r.events, r.payouts⟩ = true) : DeadId r.world id := by
  cases tx with
  | deposit sender value requestId => simp [isEffectfulFulfill] at he
  | withdrawal sender amount requestId => simp [isEffectfulFulfill] at he
  | fulfill requestId resp err =>
    simp only [isEffectfulFulfill, Bool.and_eq_true, beq_iff_eq, bne_iff_ne] at he
    obtain ⟨hid, hev⟩ := he
    subst hid
    simp only [applyTx] at h
    cases hf : fulfillRequest w.vault requestId resp err with
    | none => rw [hf] at h; cases h
    | some fr =>
      rw [hf] at h
      cases h
      rcases fulfillRequest_some_spec hf with ⟨_, _, hevs, _⟩ | ⟨hreq, hself, _, _, _⟩
      · exact absurd hevs hev
      · have hiss : requestId ∈ w.issued := by
          rcases hI.2 requestId with h0 | ⟨_, _, h3⟩
          · exact absurd (by rw [h0]; rfl) hreq
          · exact h3
        exact ⟨by rw [hself]; rfl, hiss⟩

theorem trace_count_zero {id : Nat} {w w2 : World} {tr : List TraceEntry}
    (htr : TraceFrom w tr w2) (hd : DeadId w id) :
    tr.countP (isEffectfulFulfill id) = 0 := by
  induction htr with
  | nil => rfl
  | cons h _ ih =>
    rw [List.countP_cons]
    rename_i w1 w3 tx r rest hrest
    rw [dead_not_effectful hd h]
    simpa using ih (dead_preserved hd h)

theorem trace_count_le_one {id : Nat} {w w2 : World} {tr : List TraceEntry}
    (htr : TraceFrom w tr w2) (hI : Inv w) :
    tr.countP (isEffectfulFulfill id) ≤ 1 := by
  induction htr with
  | nil => simp
  | cons h hrest ih =>
    rw [List.countP_cons]
    rename_i w1 w3 tx r rest
    by_cases he : isEffectfulFulfill id ⟨tx, r.events, r.payouts⟩ = true
    · rw [he, trace_count_zero hrest (effectful_entry_dead hI h he)]
      simp
    · rw [Bool.not_eq_true] at he
      rw [he]
      simpa using ih (inv_step hI h)

/-- C1: in every reachable state of the vault, every principal has a
non-negative balance; no sequence of dispatches and callbacks (including two
approved withdrawals whose combined amount exceeds the balance at dispatch) can
make any balance observably negative, because the checked debit of an approved
withdrawal reverts the whole callback instead of underflowing. -/
theorem vault_balances_nonneg {w : World} (h : Reachable w) :
    ∀ p, 0 ≤ balanceOf w.vault p :=
  fun p => ((reachable_inv h).1 p).1

theorem vault_balances_nonneg_witness : (0 : Int) ≤ balanceOf World.init.vault 7 :=
  vault_balances_nonneg Reachable.init 7

/-- C10: in every reachable state, every pending slot is either the untouched
default or a live entry with a non-zero requester and a strictly positive
amount; consequently the not-found test of the reconciler (stored requester
equal to the zero address) holds only of absent entries, so it never
misclassifies a live entry, and no zero-amount request is ever pending. -/
theorem pending_wellformed {w : World} (h : Reachable w) :
    ∀ id, (w.vault.s_pending id = emptyPending ∨
      ((w.vault.s_pending id).requester ≠ 0 ∧ 0 < (w.vault.s_pending id).amount)) ∧
      ((w.vault.s_pending id).requester = 0 → w.vault.s_pending id = emptyPending) := by
  intro id
  rcases (reachable_inv h).2 id with h0 | ⟨h1, h2, _⟩
  · exact ⟨Or.inl h0, fun _ => h0⟩
  · exact ⟨Or.inr ⟨h1, h2⟩, fun hc => absurd hc h1⟩

theorem pending_wellformed_witness :
    (World.init.vault.s_pending 3 = emptyPending ∨
      ((World.init.vault.s_pending 3).requester ≠ 0 ∧
        0 < (World.init.vault.s_pending 3).amount)) ∧
    ((World.init.vault.s_pending 3).requester = 0 →
      World.init.vault.s_pending 3 = emptyPending) :=
  pending_wellformed Reachable.init 3

/-- C2: along any trace from deployment, at most one callback for a given
requestId is effectful (produces anything other than the lone NoPendingRequest
event); a callback whose requestId has no live entry returns the state
unchanged, pays nothing, and produces only the NoPendingRequest event; and a
callback that completes on a live entry deletes that entry. -/
theorem fulfill_effect_at_most_once :
    (∀ (tr : List TraceEntry) (w : World), TraceFrom World.init tr w →
      ∀ id, tr.countP (isEffectfulFulfill id) ≤ 1) ∧
    (∀ (s : VaultState) (requestId : Nat) (resp err : List Nat),
      (s.s_pending requestId).requester = 0 →
      fulfillRequest s requestId resp err = some ⟨s, [Event.NoPendingRequest], []⟩) ∧
    (∀ (s : VaultState) (requestId : Nat) (resp err : List Nat) (fr : FulfillResult),
      (s.s_pending requestId).requester ≠ 0 →
      fulfillRequest s requestId resp err = some fr →
      fr.state.s_pending requestId = emptyPending) := by
  refine ⟨fun tr w htr id => trace_count_le_one htr inv_init,
    fun s requestId resp err h => fulfill_not_found resp err h,
    fun s requestId resp err fr hreq h => ?_⟩
  rcases fulfillRequest_some_spec h with ⟨h0, _, _, _⟩ | ⟨_, hself, _, _, _⟩
  · exact absurd h0 hreq
  · exact hself

theorem fulfill_effect_at_most_once_witness :
    ([] : List TraceEntry).countP (isEffectfulFulfill 1) ≤ 1 ∧
    fulfillRequest World.init.vault 1 (encodeUint256 1) [] =
      some ⟨World.init.vault, [Event.NoPendingRequest], []⟩ :=
  ⟨fulfill_effect_at_most_once.1 [] World.init (TraceFrom.nil World.init) 1,
   fulfill_effect_at_most_once.2.1 World.init.vault 1 (encodeUint256 1) [] rfl⟩

/-- Transaction list reaching a state that holds a live pending withdrawal whose
amount exceeds the current balance: principal 5 deposits 100 (approved),
dispatches two withdrawals of 100 (both pass the dispatch-time balance check),
and the first of them is approved. -/
def uwTxs : List Tx :=
  [Tx.deposit 5 100 1, Tx.fulfill 1 (encodeUint256 1) [],
   Tx.withdrawal 5 100 2, Tx.withdrawal 5 100 3,
   Tx.fulfill 2 (encodeUint256 1) []]

/-- The reachable world produced by `uwTxs`: balance of principal 5 is 0 while
request 3 is a live pending withdrawal of 100 by principal 5. -/
def uwWorld : World := (runTxs World.init uwTxs).getD World.init

/-- C3 (counterexample): in the reachable world `uwWorld`, request 3 is a live
pending withdrawal of amount 100 by requester 5, whose balance is 0; its
callback with a success payload decoding to 1 does not decrease the balance by
100, pay anything out, or emit WithdrawalRequestFulfilled — the checked debit
underflows and the whole callback reverts (`none`). -/
theorem fulfill_approved_counterexample :
    Reachable uwWorld ∧
    uwWorld.vault.s_pending 3 = PendingRequest.mk 5 100 RequestType.Withdrawal ∧
    uwWorld.vault.s_balances 5 = 0 ∧
    decodeUint256 (encodeUint256 1) = 1 ∧
    fulfillRequest uwWorld.vault 3 (encodeUint256 1) [] = none :=
  ⟨@runTxs_reachable uwTxs World.init uwWorld Reachable.init rfl, rfl, rfl, by decide, rfl⟩

/-- C3 (amended): for a live pending request whose callback carries a success
payload decoding to 1, provided the checked arithmetic of the effect does not
revert (for a Deposit, the credited balance stays below 2 ^ 256; for a
Withdrawal, the amount is at most the requester balance at callback time), the
requester balance changes by exactly the amount, the stated event is emitted, a
Withdrawal pays the amount to the requester, and no other principal balance
changes; when the guard fails the callback reverts, changing nothing. -/
theorem fulfill_approved_amended (s : VaultState) (requestId : Nat) (resp : List Nat)
    (hreq : (s.s_pending requestId).requester ≠ 0)
    (hresp : decodeUint256 resp = 1) :
    ((s.s_pending requestId).requestType = RequestType.Deposit →
      s.s_balances (s.s_pending requestId).requester
        + ((s.s_pending requestId).amount : Int) < (UINT256_MOD : Int) →
      fulfillRequest s requestId resp [] =
        some ⟨setBalance (deletePending s requestId) (s.s_pending requestId).requester
            (s.s_balances (s.s_pending requestId).requester
              + ((s.s_pending requestId).amount : Int)),
          [Event.DepositRequestFulfilled requestId (s.s_pending requestId).requester
            (s.s_pending requestId).amount], []⟩) ∧
    ((s.s_pending requestId).requestType = RequestType.Withdrawal →
      ((s.s_pending requestId).amount : Int) ≤ s.s_balances (s.s_pending requestId).requester →
      fulfillRequest s requestId resp [] =
        some ⟨setBalance (deletePending s requestId) (s.s_pending requestId).requester
            (s.s_balances (s.s_pending requestId).requester
              - ((s.s_pending requestId).amount : Int)),
          [Event.WithdrawalRequestFulfilled requestId (s.s_pending requestId).requester
            (s.s_pending requestId).amount],
          [((s.s_pending requestId).requester, (s.s_pending requestId).amount)]⟩) ∧
    (∀ fr, fulfillRequest s requestId resp [] = some fr →
      ∀ p, p ≠ (s.s_pending requestId).requester → fr.state.s_balances p = s.s_balances p) := by
  refine ⟨fun ht hov => fulfill_deposit_approved hreq ht hresp hov,
    fun ht hle => fulfill_withdrawal_approved hreq ht hresp hle,
    fun fr h p hp => ?_⟩
  rcases fulfillRequest_some_spec h with ⟨h0, _, _, _⟩ | ⟨_, _, _, hbal, _⟩
  · exact absurd h0 hreq
  · exact hbal p hp

/-- Concrete vault storage used by witnesses: principal 5 holds balance 100 and
request 1 is a live pending withdrawal of 40 by principal 5. -/
def witVault : VaultState :=
  setPending (setBalance ⟨fun _ => 0, fun _ => emptyPending⟩ 5 100) 1
    ⟨5, 40, RequestType.Withdrawal⟩

theorem fulfill_approved_amended_witness :
    fulfillRequest witVault 1 (encodeUint256 1) [] =
      some ⟨setBalance (deletePending witVault 1) (witVault.s_pending 1).requester
          (witVault.s_balances (witVault.s_pending 1).requester
            - ((witVault.s_pending 1).amount : Int)),
        [Event.WithdrawalRequestFulfilled 1 (witVault.s_pending 1).requester
          (witVault.s_pending 1).amount],
        [((witVault.s_pending 1).requester, (witVault.s_pending 1).amount)]⟩ :=
  (fulfill_approved_amended witVault 1 (encodeUint256 1) (by decide) (by decide)).2.1
    rfl (by decide)

/-- C4: for a live pending request whose callback carries a success payload
decoding to anything other than 1, no balance changes for either kind; a
Deposit has its escrowed amount paid back to the requester (the single refund
payout of the callback) with DepositRequestCancelled, and a Withdrawal performs
no payout with WithdrawalRequestCancelled; in both cases the entry is
retired. -/
theorem fulfill_rejected_no_effect (s : VaultState) (requestId : Nat) (resp : List Nat)
    (hreq : (s.s_pending requestId).requester ≠ 0)
    (hresp : decodeUint256 resp ≠ 1) :
    ((s.s_pending requestId).requestType = RequestType.Deposit →
      fulfillRequest s requestId resp [] =
        some ⟨deletePending s requestId,
          [Event.DepositRequestCancelled requestId (s.s_pending requestId).requester
            (s.s_pending requestId).amount],
          [((s.s_pending requestId).requester, (s.s_pending requestId).amount)]⟩) ∧
    ((s.s_pending requestId).requestType = RequestType.Withdrawal →
      fulfillRequest s requestId resp [] =
        some ⟨deletePending s requestId,
          [Event.WithdrawalRequestCancelled requestId (s.s_pending requestId).requester
            (s.s_pending requestId).amount], []⟩) ∧
    (∀ p, (deletePending s requestId).s_balances p = s.s_balances p) ∧
    (deletePending s requestId).s_pending requestId = emptyPending :=
  ⟨fun ht => fulfill_deposit_rejected hreq ht hresp,
   fun ht => fulfill_withdrawal_rejected hreq ht hresp,
   fun _ => rfl, by simp [deletePending]⟩

theorem fulfill_rejected_no_effect_witness :
    fulfillRequest witVault 1 (encodeUint256 0) [] =
      some ⟨deletePending witVault 1,
        [Event.WithdrawalRequestCancelled 1 (witVault.s_pending 1).requester
          (witVault.s_pending 1).amount], []⟩ :=
  (fulfill_rejected_no_effect witVault 1 (encodeUint256 0) (by decide) (by decide)).2.1 rfl

/-- C5: for a live pending request of either kind, a callback carrying a
non-empty error payload mutates no balance, moves no funds, emits RequestFailed
with the error bytes, and retires the pending entry. -/
theorem fulfill_error_no_mutation (s : VaultState) (requestId : Nat) (resp err : List Nat)
    (hreq : (s.s_pending requestId).requester ≠ 0) (herr : err ≠ []) :
    fulfillRequest s requestId resp err =
      some ⟨deletePending s requestId, [Event.RequestFailed err], []⟩ ∧
    (∀ p, (deletePending s requestId).s_balances p = s.s_balances p) ∧
    (deletePending s requestId).s_pending requestId = emptyPending :=
  ⟨fulfill_error resp hreq herr, fun _ => rfl, by simp [deletePending]⟩

theorem fulfill_error_no_mutation_witness :
    fulfillRequest witVault 1 [] [7] =
      some ⟨deletePending witVault 1, [Event.RequestFailed [7]], []⟩ ∧
    (∀ p, (deletePending witVault 1).s_balances p = witVault.s_balances p) ∧
    (deletePending witVault 1).s_pending 1 = emptyPending :=
  fulfill_error_no_mutation witVault 1 [] [7] (by decide) (by decide)

/-- C7 (counterexample): in the reachable world `uwWorld`, request 3 is live,
yet its approved callback cannot be absorbed: `fulfillRequest` reverts on the
checked debit, so no chain step exists for the callback and the pending entry
stays live after the callback attempt, contradicting the claim that every
callback completes without throwing and leaves no live entry. -/
theorem callback_revert_counterexample :
    Reachable uwWorld ∧
    (uwWorld.vault.s_pending 3).requester ≠ 0 ∧
    applyTx uwWorld (Tx.fulfill 3 (encodeUint256 1) []) = none :=
  ⟨@runTxs_reachable uwTxs World.init uwWorld Reachable.init rfl, by decide, rfl⟩

/-- C7 (amended): a callback that completes without reverting leaves no live
entry for its requestId; a callback reverts exactly when it names a live entry,
carries an empty error payload and an approved response, and the checked
arithmetic guard of the effect fails (deposit credit overflow or withdrawal
debit underflow); a reverting callback is not a chain step, so the ledger and
registry are untouched and the debit stays all-or-nothing. -/
theorem callback_completion_amended :
    (∀ (s : VaultState) (requestId : Nat) (resp err : List Nat) (fr : FulfillResult),
      fulfillRequest s requestId resp err = some fr →
      (fr.state.s_pending requestId).requester = 0) ∧
    (∀ (s : VaultState) (requestId : Nat) (resp err : List Nat),
      fulfillRequest s requestId resp err = none ↔
        ((s.s_pending requestId).requester ≠ 0 ∧ err = [] ∧ decodeUint256 resp = 1 ∧
          (((s.s_pending requestId).requestType = RequestType.Deposit ∧
            ¬ s.s_balances (s.s_pending requestId).requester
              + ((s.s_pending requestId).amount : Int) < (UINT256_MOD : Int)) ∨
           ((s.s_pending requestId).requestType = RequestType.Withdrawal ∧
            ¬ ((s.s_pending requestId).amount : Int)
              ≤ s.s_balances (s.s_pending requestId).requester)))) ∧
    (∀ (w : World) (requestId : Nat) (resp err : List Nat),
      fulfillRequest w.vault requestId resp err = none →
      applyTx w (Tx.fulfill requestId resp err) = none) := by
  refine ⟨?_, ?_, ?_⟩
  · intro s requestId resp err fr h
    rcases fulfillRequest_some_spec h with ⟨h0, hst, _, _⟩ | ⟨_, hself, _, _, _⟩
    · rw [hst]; exact h0
    · rw [hself]; rfl
  · intro s requestId resp err
    constructor
    · intro h
      by_cases hreq : (s.s_pending requestId).requester = 0
      · rw [fulfill_not_found resp err hreq] at h; cases h
      · by_cases herr : err = []
        · subst herr
          by_cases hresp : decodeUint256 resp = 1
          · cases htype : (s.s_pending requestId).requestType with
            | Deposit =>
              by_cases hov : s.s_balances (s.s_pending requestId).requester
                + ((s.s_pending requestId).amount : Int) < (UINT256_MOD : Int)
              · rw [fulfill_deposit_approved hreq htype hresp hov] at h; cases h
              · exact ⟨hreq, rfl, hresp, Or.inl ⟨rfl, hov⟩⟩
            | Withdrawal =>
              by_cases hle : ((s.s_pending requestId).amount : Int)
                ≤ s.s_balances (s.s_pending requestId).requester
              · rw [fulfill_withdrawal_approved hreq htype hresp hle] at h; cases h
              · exact ⟨hreq, rfl, hresp, Or.inr ⟨rfl, hle⟩⟩
          · cases htype : (s.s_pending requestId).requestType with
            | Deposit => rw [fulfill_deposit_rejected hreq htype hresp] at h; cases h
            | Withdrawal => rw [fulfill_withdrawal_rejected hreq htype hresp] at h; cases h
        · rw [fulfill_error resp hreq herr] at h; cases h
    · rintro ⟨hreq, herr, hresp, hcase | hcase⟩
      · subst herr; exact fulfill_deposit_overflow hreq hcase.1 hresp hcase.2
      · subst herr; exact fulfill_withdrawal_underflow hreq hcase.1 hresp hcase.2
  · intro w requestId resp err h
    simp [applyTx, h]

/-- Completed result of the error callback on `witVault`, used by the witness. -/
def witFulfillResult : FulfillResult :=
  (fulfillRequest witVault 1 [] [7]).getD ⟨witVault, [], []⟩

theorem callback_completion_amended_witness :
    (witFulfillResult.state.s_pending 1).requester = 0 ∧
    fulfillRequest uwWorld.vault 3 (encodeUint256 1) [] = none ∧
    applyTx uwWorld (Tx.fulfill 3 (encodeUint256 1) []) = none :=
  ⟨callback_completion_amended.1 witVault 1 [] [7] witFulfillResult rfl,
   (callback_completion_amended.2.1 uwWorld.vault 3 (encodeUint256 1) []).mpr
     ⟨by decide, rfl, by decide, Or.inr ⟨rfl, by decide⟩⟩,
   callback_completion_amended.2.2 uwWorld 3 (encodeUint256 1) [] rfl⟩

/-- C6: requestDeposit fails exactly when the supplied value is zero, with
ZeroAmount; requestWithdrawal fails with ZeroAmount on a zero amount and with
the insufficient-funds error when the amount exceeds the requester balance at
dispatch time, and succeeds otherwise, recording the pending entry; every such
failure reverts the transaction, so it is no chain step and leaves all state
unchanged, with no escrow taken and no registry entry created. -/
theorem dispatch_validation :
    (∀ (s : VaultState) (sender value requestId : Nat),
      (∃ e, requestDeposit s sender value requestId = Except.error e) ↔ value = 0) ∧
    (∀ (s : VaultState) (sender requestId : Nat),
      requestDeposit s sender 0 requestId = Except.error VaultError.ZeroAmount) ∧
    (∀ (s : VaultState) (sender requestId : Nat),
      requestWithdrawal s sender 0 requestId = Except.error VaultError.ZeroAmount) ∧
    (∀ (s : VaultState) (sender amount requestId : Nat), amount ≠ 0 →
      (amount : Int) > s.s_balances sender →
      requestWithdrawal s sender amount requestId =
        Except.error VaultError.InsufficientBalance) ∧
    (∀ (s : VaultState) (sender amount requestId : Nat), amount ≠ 0 →
      ¬ (amount : Int) > s.s_balances sender →
      requestWithdrawal s sender amount requestId =
        Except.ok (setPending s requestId ⟨sender, amount, RequestType.Withdrawal⟩,
          [Event.WithdrawalRequest requestId sender amount])) ∧
    (∀ (w : World) (sender requestId : Nat),
      applyTx w (Tx.deposit sender 0 requestId) = none) ∧
    (∀ (w : World) (sender amount requestId : Nat),
      amount = 0 ∨ (amount : Int) > w.vault.s_balances sender →
      applyTx w (Tx.withdrawal sender amount requestId) = none) := by
  refine ⟨?_, ?_, ?_, ?_, ?_, ?_, ?_⟩
  · intro s sender value requestId
    constructor
    · rintro ⟨e, he⟩
      by_cases hv : value = 0
      · exact hv
      · simp [requestDeposit, hv] at he
    · intro hv
      exact ⟨VaultError.ZeroAmount, by simp [requestDeposit, hv]⟩
  · intro s sender requestId; simp [requestDeposit]
  · intro s sender requestId; simp [requestWithdrawal]
  · intro s sender amount requestId hv hgt; simp [requestWithdrawal, hv, hgt]
  · intro s sender amount requestId hv hgt; simp [requestWithdrawal, hv, hgt]
  · intro w sender requestId; simp [applyTx, requestDeposit]
  · intro w sender amount requestId h
    by_cases hv : amount = 0
    · simp [applyTx, requestWithdrawal, hv]
    · rcases h with h0 | hgt
      · exact absurd h0 hv
      · simp [applyTx, requestWithdrawal, hv, hgt]

theorem dispatch_validation_witness :
    ((∃ e, requestDeposit witVault 5 0 2 = Except.error e) ↔ (0 : Nat) = 0) ∧
    requestWithdrawal witVault 5 200 2 = Except.error VaultError.InsufficientBalance ∧
    applyTx World.init (Tx.withdrawal 5 1 4) = none :=
  ⟨dispatch_validation.1 witVault 5 0 2,
   dispatch_validation.2.2.2.1 witVault 5 200 2 (by decide) (by decide),
   dispatch_validation.2.2.2.2.2.2 World.init 5 1 4 (Or.inr (by decide))⟩

/-- The requestId parameter an event carries, per the Solidity declarations. -/
def eventRequestId : Event → Option Nat
  | Event.DepositRequest requestId _ _ => some requestId
  | Event.WithdrawalRequest requestId _ _ => some requestId
  | Event.DepositRequestFulfilled requestId _ _ => some requestId
  | Event.WithdrawalRequestFulfilled requestId _ _ => some requestId
  | Event.DepositRequestCancelled requestId _ _ => some requestId
  | Event.WithdrawalRequestCancelled requestId _ _ => some requestId
  | Event.RequestFailed _ => none
  | Event.UnknownRequestType => none
  | Event.NoPendingRequest => none

/-- The principal (requester) parameter an event carries. -/
def eventPrincipal : Event → Option Nat
  | Event.DepositRequest _ requester _ => some requester
  | Event.WithdrawalRequest _ requester _ => some requester
  | Event.DepositRequestFulfilled _ requester _ => some requester
  | Event.WithdrawalRequestFulfilled _ requester _ => some requester
  | Event.DepositRequestCancelled _ requester _ => some requester
  | Event.WithdrawalRequestCancelled _ requester _ => some requester
  | Event.RequestFailed _ => none
  | Event.UnknownRequestType => none
  | Event.NoPendingRequest => none

/-- The amount parameter an event carries. -/
def eventAmount : Event → Option Nat
  | Event.DepositRequest _ _ amount => some amount
  | Event.WithdrawalRequest _ _ amount => some amount
  | Event.DepositRequestFulfilled _ _ amount => some amount
  | Event.WithdrawalRequestFulfilled _ _ amount => some amount
  | Event.DepositRequestCancelled _ _ amount => some amount
  | Event.WithdrawalRequestCancelled _ _ amount => some amount
  | Event.RequestFailed _ => none
  | Event.UnknownRequestType => none
  | Event.NoPendingRequest => none

/-- C8 (counterexample): the core emits events that carry none of requestId,
principal, and amount: a callback for a never-issued id emits the bare
NoPendingRequest event, and an error callback for a live entry emits
RequestFailed carrying only the raw error bytes. -/
theorem event_fields_counterexample :
    (applyTx World.init (Tx.fulfill 9 (encodeUint256 1) [])).map (fun r => r.events) =
      some [Event.NoPendingRequest] ∧
    eventRequestId Event.NoPendingRequest = none ∧
    eventPrincipal Event.NoPendingRequest = none ∧
    eventAmount Event.NoPendingRequest = none ∧
    (applyTx uwWorld (Tx.fulfill 3 [] [7])).map (fun r => r.events) =
      some [Event.RequestFailed [7]] ∧
    eventRequestId (Event.RequestFailed [7]) = none ∧
    eventPrincipal (Event.RequestFailed [7]) = none ∧
    eventAmount (Event.RequestFailed [7]) = none :=
  ⟨rfl, rfl, rfl, rfl, rfl, rfl, rfl, rfl⟩

/-- C8 (amended): every event emitted by a chain step either carries all of the
relevant requestId, principal, and amount (the request, fulfilled, and
cancelled events), or is the RequestFailed event carrying only the raw error
bytes, or is the parameterless NoPendingRequest event. -/
theorem event_fields_amended :
    ∀ (w : World) (tx : Tx) (r : TxResult), applyTx w tx = some r →
      ∀ e ∈ r.events,
        e = Event.NoPendingRequest ∨ (∃ m, e = Event.RequestFailed m) ∨
        (eventRequestId e ≠ none ∧ eventPrincipal e ≠ none ∧ eventAmount e ≠ none) := by
  intro w tx r h e he
  cases tx with
  | deposit sender value requestId =>
    simp only [applyTx] at h
    split at h
    next hcond =>
      by_cases hv : value = 0
      · simp [requestDeposit, hv] at h
      · simp only [requestDeposit, hv, if_neg hv, ite_false] at h
        cases h
        simp only [List.mem_singleton] at he
        subst he
        exact Or.inr (Or.inr ⟨by simp [eventRequestId], by simp [eventPrincipal],
          by simp [eventAmount]⟩)
    next => cases h
  | withdrawal sender amount requestId =>
    simp only [applyTx] at h
    split at h
    next hcond =>
      by_cases hv : amount = 0
      · simp [requestWithdrawal, hv] at h
      · by_cases hgt : (amount : Int) > w.vault.s_balances sender
        · simp [requestWithdrawal, hv, hgt] at h
        · simp only [requestWithdrawal, hv, if_neg hv, hgt, ite_false] at h
          cases h
          simp only [List.mem_singleton] at he
          subst he
          exact Or.inr (Or.inr ⟨by simp [eventRequestId], by simp [eventPrincipal],
            by simp [eventAmount]⟩)
    next => cases h
  | fulfill requestId resp err =>
    simp only [applyTx] at h
    cases hf : fulfillRequest w.vault requestId resp err with
    | none => rw [hf] at h; cases h
    | some fr =>
      rw [hf] at h
      cases h
      by_cases hreq : (w.vault.s_pending requestId).requester = 0
      · rw [fulfill_not_found resp err hreq] at hf
        cases hf
        simp only [List.mem_singleton] at he
        subst he
        exact Or.inl rfl
      · by_cases herr : err = []
        · subst herr
          by_cases hresp : decodeUint256 resp = 1
          · cases htype : (w.vault.s_pending requestId).requestType with
            | Deposit =>
              by_cases hov : w.vault.s_balances (w.vault.s_pending requestId).requester
                + ((w.vault.s_pending requestId).amount : Int) < (UINT256_MOD : Int)
              · rw [fulfill_deposit_approved hreq htype hresp hov] at hf
                cases hf
                simp only [List.mem_singleton] at he
                subst he
                exact Or.inr (Or.inr ⟨by simp [eventRequestId], by simp [eventPrincipal],
                  by simp [eventAmount]⟩)
              · rw [fulfill_deposit_overflow hreq htype hresp hov] at hf; cases hf
            | Withdrawal =>
              by_cases hle : ((w.vault.s_pending requestId).amount : Int)
                ≤ w.vault.s_balances (w.vault.s_pending requestId).requester
              · rw [fulfill_withdrawal_approved hreq htype hresp hle] at hf
                cases hf
                simp only [List.mem_singleton] at he
                subst he
                exact Or.inr (Or.inr ⟨by simp [eventRequestId], by simp [eventPrincipal],
                  by simp [eventAmount]⟩)
              · rw [fulfill_withdrawal_underflow hreq htype hresp hle] at hf; cases hf
          · cases htype : (w.vault.s_pending requestId).requestType with
            | Deposit =>
              rw [fulfill_deposit_rejected hreq htype hresp] at hf
              cases hf
              simp only [List.mem_singleton] at he
              subst he
              exact Or.inr (Or.inr ⟨by simp [eventRequestId], by simp [eventPrincipal],
                by simp [eventAmount]⟩)
            | Withdrawal =>
              rw [fulfill_withdrawal_rejected hreq htype hresp] at hf
              cases hf
              simp only [List.mem_singleton] at he
              subst he
              exact Or.inr (Or.inr ⟨by simp [eventRequestId], by simp [eventPrincipal],
                by simp [eventAmount]⟩)
        · rw [fulfill_error resp hreq herr] at hf
          cases hf
          simp only [List.mem_singleton] at he
          subst he
          exact Or.inr (Or.inl ⟨err, rfl⟩)

/-- Completed result of the first deposit transaction, used by the witness. -/
def witDepositResult : TxResult :=
  (applyTx World.init (Tx.deposit 5 100 1)).getD ⟨World.init, [], []⟩

theorem event_fields_amended_witness :
    Event.DepositRequest 1 5 100 = Event.NoPendingRequest ∨
    (∃ m, Event.DepositRequest 1 5 100 = Event.RequestFailed m) ∨
    (eventRequestId (Event.DepositRequest 1 5 100) ≠ none ∧
      eventPrincipal (Event.DepositRequest 1 5 100) ≠ none ∧
      eventAmount (Event.DepositRequest 1 5 100) ≠ none) :=
  event_fields_amended World.init (Tx.deposit 5 100 1) witDepositResult rfl
    (Event.DepositRequest 1 5 100) (by decide)

/-- An HTTP response as the checker script sees it: status code, status text,
and the parsed body. -/
structure HttpResponse (α : Type) where
  status : Nat
  statusText : String
  data : α

/-- Body of the deposit risk read: the `data.risk` field. -/
structure RiskData where
  risk : String

/-- Body of the withdrawal-attempt registration: the `data.externalId` field. -/
structure WithdrawalRegistrationData where
  externalId : String

/-- The `direct` object of the exposures read; `name` is null or a string. -/
structure DirectExposure where
  name : Option String

/-- Body of the exposures read: the `data.direct` object. -/
structure ExposuresData where
  direct : DirectExposure

/-- Body of the alerts read: the `data.alerts` array (elements opaque). -/
structure AlertsData where
  alerts : List String

/-- Model of `Error(statusText || status)` from the script: the status text when
non-empty (truthy), otherwise the numeric status. -/
def httpErrorMessage (status : Nat) (statusText : String) : String :=
  if statusText = "" then toString status else statusText

/-- Model of `checkDeposit` as a function of the two HTTP responses its calls
receive: the entity registration must return 201 and the risk read 200,
otherwise the script raises; approval (encoded 1) exactly when the reported
risk is the string Low, otherwise encoded 0. -/
def checkDeposit (registerResponse : HttpResponse Unit)
    (riskResponse : HttpResponse RiskData) : Except String (List Nat) :=
  if registerResponse.status ≠ 201 then
    Except.error (httpErrorMessage registerResponse.status registerResponse.statusText)
  else if riskResponse.status ≠ 200 then
    Except.error (httpErrorMessage riskResponse.status riskResponse.statusText)
  else
    Except.ok (encodeUint256 (if riskResponse.data.risk = "Low" then 1 else 0))

/-- Model of `checkWithdrawal` as a function of the three HTTP responses its
calls receive: the withdrawal-attempt registration must return 202 and the
exposures and alerts reads 200, otherwise the script raises; approval (encoded
1) exactly when there is no direct exposure (`direct.name` null) and no alerts,
otherwise encoded 0. -/
def checkWithdrawal (registrationResponse : HttpResponse WithdrawalRegistrationData)
    (exposuresResponse : HttpResponse ExposuresData)
    (alertsResponse : HttpResponse AlertsData) : Except String (List Nat) :=
  if registrationResponse.status ≠ 202 then
    Except.error (httpErrorMessage registrationResponse.status registrationResponse.statusText)
  else if exposuresResponse.status ≠ 200 then
    Except.error (httpErrorMessage exposuresResponse.status exposuresResponse.statusText)
  else if alertsResponse.status ≠ 200 then
    Except.error (httpErrorMessage alertsResponse.status alertsResponse.statusText)
  else
    let hasDirectExposure : Bool := exposuresResponse.data.direct.name.isSome
    let hasAlerts : Bool := decide (alertsResponse.data.alerts.length > 0)
    Except.ok (encodeUint256 (if !hasDirectExposure && !hasAlerts then 1 else 0))

/-- C9: given the HTTP responses its calls receive, the checker returns the
32-byte encoding of 1 exactly when, for a Deposit, the risk read reports risk
Low, and for a Withdrawal, the exposure and alert reads report no direct
exposure and no alerts; every other successful run returns the encoding of 0;
it raises an error exactly when some call returns a status other than the
expected one (201, then 200 for Deposit; 202, then 200, then 200 for
Withdrawal); and the contract decodes the two encodings back to 1 and 0. -/
theorem checker_outcomes :
    (∀ (reg : HttpResponse Unit) (risk : HttpResponse RiskData),
      (checkDeposit reg risk = Except.ok (encodeUint256 1) ↔
        reg.status = 201 ∧ risk.status = 200 ∧ risk.data.risk = "Low") ∧
      (checkDeposit reg risk = Except.ok (encodeUint256 0) ↔
        reg.status = 201 ∧ risk.status = 200 ∧ risk.data.risk ≠ "Low") ∧
      ((∃ m, checkDeposit reg risk = Except.error m) ↔
        reg.status ≠ 201 ∨ risk.status ≠ 200)) ∧
    (∀ (regw : HttpResponse WithdrawalRegistrationData) (expo : HttpResponse ExposuresData)
        (al : HttpResponse AlertsData),
      (checkWithdrawal regw expo al = Except.ok (encodeUint256 1) ↔
        regw.status = 202 ∧ expo.status = 200 ∧ al.status = 200 ∧
          expo.data.direct.name = none ∧ al.data.alerts = []) ∧
      (checkWithdrawal regw expo al = Except.ok (encodeUint256 0) ↔
        regw.status = 202 ∧ expo.status = 200 ∧ al.status = 200 ∧
          (expo.data.direct.name ≠ none ∨ al.data.alerts ≠ [])) ∧
      ((∃ m, checkWithdrawal regw expo al = Except.error m) ↔
        regw.status ≠ 202 ∨ expo.status ≠ 200 ∨ al.status ≠ 200)) ∧
    decodeUint256 (encodeUint256 1) = 1 ∧
    decodeUint256 (encodeUint256 0) = 0 ∧
    (encodeUint256 1).length = 32 := by
  have henc : encodeUint256 1 ≠ encodeUint256 0 := by decide
  refine ⟨?_, ?_, by decide, by decide, by decide⟩
  · intro reg risk
    by_cases h1 : reg.status = 201
    · by_cases h2 : risk.status = 200
      · by_cases h3 : risk.data.risk = "Low"
        · simp [checkDeposit, h1, h2, h3, henc]
        · simp [checkDeposit, h1, h2, h3, henc, henc.symm]
      · simp [checkDeposit, h1, h2]
    · simp [checkDeposit, h1]
  · intro regw expo al
    by_cases h1 : regw.status = 202
    · by_cases h2 : expo.status = 200
      · by_cases h3 : al.status = 200
        · cases hn : expo.data.direct.name with
          | none =>
            cases ha : al.data.alerts with
            | nil => simp [checkWithdrawal, h1, h2, h3, hn, ha, henc]
            | cons a as => simp [checkWithdrawal, h1, h2, h3, hn, ha, henc, henc.symm]
          | some v =>
            cases ha : al.data.alerts with
            | nil => simp [checkWithdrawal, h1, h2, h3, hn, ha, henc, henc.symm]
            | cons a as => simp [checkWithdrawal, h1, h2, h3, hn, ha, henc, henc.symm]
        · simp [checkWithdrawal, h1, h2, h3]
      · simp [checkWithdrawal, h1, h2]
    · simp [checkWithdrawal, h1]

theorem checker_outcomes_witness :
    checkDeposit ⟨201, "", ()⟩ ⟨200, "", ⟨"Low"⟩⟩ = Except.ok (encodeUint256 1) ∧
    checkWithdrawal ⟨202, "", ⟨"x"⟩⟩ ⟨200, "", ⟨⟨none⟩⟩⟩ ⟨200, "", ⟨[]⟩⟩ =
      Except.ok (encodeUint256 1) ∧
    checkWithdrawal ⟨202, "", ⟨"x"⟩⟩ ⟨200, "", ⟨⟨some "Sanctions"⟩⟩⟩ ⟨200, "", ⟨[]⟩⟩ =
      Except.ok (encodeUint256 0) :=
  ⟨(checker_outcomes.1 ⟨201, "", ()⟩ ⟨200, "", ⟨"Low"⟩⟩).1.mpr ⟨rfl, rfl, rfl⟩,
   ((checker_outcomes.2.1 ⟨202, "", ⟨"x"⟩⟩ ⟨200, "", ⟨⟨none⟩⟩⟩ ⟨200, "", ⟨[]⟩⟩).1).mpr
     ⟨rfl, rfl, rfl, rfl, rfl⟩,
   ((checker_outcomes.2.1 ⟨202, "", ⟨"x"⟩⟩ ⟨200, "", ⟨⟨some "Sanctions"⟩⟩⟩
       ⟨200, "", ⟨[]⟩⟩).2.1).mpr ⟨rfl, rfl, rfl, Or.inl (by decide)⟩⟩

end CompliantVault
